import Mathlib

/-!
Verification of the pomodoro timer core (`src/lib.rs`).

The development shallowly embeds the session state machine and its two
file-backed stores.  The filesystem is modelled as an association list of
paths to typed file contents, plus a set of paths on which `File::create`
is assumed to fail (fault injection for the error-handling claims).
Machine integers are embedded as `Int`/`Nat` with explicit wrapping where
the Rust code can wrap (`as u64`, `as i64`, `saturating_sub`).
-/

namespace Pomodoro

/-! ## Calendar arithmetic

Models the proleptic-Gregorian conversions used by `chrono` when
formatting timestamps (`%Y%m%dT%H%M%SZ` and `%Y-%m-%d %H:%M:%S %Z`).
`chrono` uses the standard civil-from-days algorithm; we embed it over
`Nat` (all instants reaching it in this program are seconds since the
Unix epoch, cast through `u64`). -/

/-- Civil date (year, month, day) from a day count shifted so that day 0
is 0000-03-01 (i.e. the input is `days_since_unix_epoch + 719468`).
This is the civil-from-days algorithm used by chrono. -/
def dateFromZ (z : Nat) : Nat × Nat × Nat :=
  let era := z / 146097
  let doe := z % 146097
  let yoe := (doe - doe / 1460 + doe / 36524 - doe / 146096) / 365
  let doy := doe - (365 * yoe + yoe / 4 - yoe / 100)
  let mp := (5 * doy + 2) / 153
  let d := doy - (153 * mp + 2) / 5 + 1
  let m := if mp < 10 then mp + 3 else mp - 9
  (era * 400 + yoe + (if m ≤ 2 then 1 else 0), m, d)

/-- Inverse of `dateFromZ`: shifted day count from a civil date
(days-from-civil algorithm). -/
def zFromDate : Nat × Nat × Nat → Nat
  | (y, m, d) =>
    let y2 := y - (if m ≤ 2 then 1 else 0)
    let era := y2 / 400
    let yoe := y2 % 400
    let mp := if m ≤ 2 then m + 9 else m - 3
    let doy := (153 * mp + 2) / 5 + d - 1
    let doe := 365 * yoe + yoe / 4 - yoe / 100 + doy
    era * 146097 + doe

/-- Correctness of the year-of-era formula near day-of-era 36500
(where the year-of-era division interacts with the century correction). -/
theorem yoe_facts_aux25 (doe : Nat) (h : doe < 146097) (hg1 : doe / 1460 = 25) :
    365 * ((doe - 25 + doe / 36524 - doe / 146096) / 365) + ((doe - 25 + doe / 36524 - doe / 146096) / 365) / 4 - ((doe - 25 + doe / 36524 - doe / 146096) / 365) / 100 ≤ doe ∧
      doe - (365 * ((doe - 25 + doe / 36524 - doe / 146096) / 365) + ((doe - 25 + doe / 36524 - doe / 146096) / 365) / 4 - ((doe - 25 + doe / 36524 - doe / 146096) / 365) / 100) ≤ 365 := by
  obtain ⟨yoe, hy1, hlo, hhi⟩ :
      ∃ yoe, (doe - 25 + doe / 36524 - doe / 146096) / 365 = yoe ∧ 99 ≤ yoe ∧ yoe ≤ 104 :=
    ⟨_, rfl, by omega, by omega⟩
  rw [hy1]
  interval_cases yoe <;> omega

/-- Correctness of the year-of-era formula near day-of-era 73000
(where the year-of-era division interacts with the century correction). -/
theorem yoe_facts_aux50 (doe : Nat) (h : doe < 146097) (hg1 : doe / 1460 = 50) :
    365 * ((doe - 50 + doe / 36524 - doe / 146096) / 365) + ((doe - 50 + doe / 36524 - doe / 146096) / 365) / 4 - ((doe - 50 + doe / 36524 - doe / 146096) / 365) / 100 ≤ doe ∧
      doe - (365 * ((doe - 50 + doe / 36524 - doe / 146096) / 365) + ((doe - 50 + doe / 36524 - doe / 146096) / 365) / 4 - ((doe - 50 + doe / 36524 - doe / 146096) / 365) / 100) ≤ 365 := by
  obtain ⟨yoe, hy1, hlo, hhi⟩ :
      ∃ yoe, (doe - 50 + doe / 36524 - doe / 146096) / 365 = yoe ∧ 199 ≤ yoe ∧ yoe ≤ 204 :=
    ⟨_, rfl, by omega, by omega⟩
  rw [hy1]
  interval_cases yoe <;> omega

/-- Correctness of the year-of-era formula near day-of-era 109500
(where the year-of-era division interacts with the century correction). -/
theorem yoe_facts_aux75 (doe : Nat) (h : doe < 146097) (hg1 : doe / 1460 = 75) :
    365 * ((doe - 75 + doe / 36524 - doe / 146096) / 365) + ((doe - 75 + doe / 36524 - doe / 146096) / 365) / 4 - ((doe - 75 + doe / 36524 - doe / 146096) / 365) / 100 ≤ doe ∧
      doe - (365 * ((doe - 75 + doe / 36524 - doe / 146096) / 365) + ((doe - 75 + doe / 36524 - doe / 146096) / 365) / 4 - ((doe - 75 + doe / 36524 - doe / 146096) / 365) / 100) ≤ 365 := by
  obtain ⟨yoe, hy1, hlo, hhi⟩ :
      ∃ yoe, (doe - 75 + doe / 36524 - doe / 146096) / 365 = yoe ∧ 299 ≤ yoe ∧ yoe ≤ 304 :=
    ⟨_, rfl, by omega, by omega⟩
  rw [hy1]
  interval_cases yoe <;> omega

set_option maxHeartbeats 1600000 in
/-- The year-of-era formula of `dateFromZ` is correct: the day count at
the start of the computed year-of-era is at most `doe`, and `doe` falls
within that year (at most 365 days later). -/
theorem yoe_facts (doe : Nat) (h : doe < 146097) :
    ((doe - doe / 1460 + doe / 36524 - doe / 146096) / 365) ≤ 399 ∧
      365 * ((doe - doe / 1460 + doe / 36524 - doe / 146096) / 365) + ((doe - doe / 1460 + doe / 36524 - doe / 146096) / 365) / 4 - ((doe - doe / 1460 + doe / 36524 - doe / 146096) / 365) / 100 ≤ doe ∧
      doe - (365 * ((doe - doe / 1460 + doe / 36524 - doe / 146096) / 365) + ((doe - doe / 1460 + doe / 36524 - doe / 146096) / 365) / 4 - ((doe - doe / 1460 + doe / 36524 - doe / 146096) / 365) / 100) ≤ 365 := by
  refine ⟨by omega, ?_⟩
  obtain ⟨g, hg1, hg2⟩ : ∃ g, doe / 1460 = g ∧ g ≤ 100 := ⟨_, rfl, by omega⟩
  rw [hg1]
  interval_cases g <;>
    first
      | omega
      | exact yoe_facts_aux25 doe h hg1
      | exact yoe_facts_aux50 doe h hg1
      | exact yoe_facts_aux75 doe h hg1

set_option maxHeartbeats 800000 in
/-- `zFromDate` is a left inverse of `dateFromZ`. -/
theorem zFromDate_dateFromZ (z : Nat) : zFromDate (dateFromZ z) = z := by
  obtain ⟨doe, hdoe, hdlt⟩ : ∃ d, z % 146097 = d ∧ d < 146097 := ⟨_, rfl, by omega⟩
  obtain ⟨era, her⟩ : ∃ a, z / 146097 = a := ⟨_, rfl⟩
  have hz : z = 146097 * era + doe := by omega
  obtain ⟨hA, hB, hC⟩ := yoe_facts doe hdlt
  obtain ⟨yoe, hyoe⟩ : ∃ y, (doe - doe / 1460 + doe / 36524 - doe / 146096) / 365 = y :=
    ⟨_, rfl⟩
  rw [hyoe] at hA hB hC
  obtain ⟨doy, hdoy⟩ : ∃ d, doe - (365 * yoe + yoe / 4 - yoe / 100) = d := ⟨_, rfl⟩
  rw [hdoy] at hC
  obtain ⟨mp, hmp, hmp11⟩ : ∃ m, (5 * doy + 2) / 153 = m ∧ m ≤ 11 := ⟨_, rfl, by omega⟩
  obtain ⟨dd, hdd⟩ : ∃ d, doy - (153 * mp + 2) / 5 + 1 = d := ⟨_, rfl⟩
  have hd1 : (era * 400 + yoe) / 400 = era := by omega
  have hd2 : (era * 400 + yoe) % 400 = yoe := by omega
  unfold dateFromZ zFromDate
  dsimp only
  rw [her, hdoe, hyoe, hdoy, hmp, hdd]
  split
  · -- mp < 10, month is mp + 3
    split
    · -- (mp + 3) ≤ 2: impossible
      omega
    · simp only [Nat.add_sub_cancel]
      rw [hd1, hd2]
      omega
  · -- 10 ≤ mp, month is mp - 9
    split
    · -- (mp - 9) ≤ 2
      rw [Nat.sub_add_cancel (by omega)]
      simp only [Nat.add_sub_cancel]
      rw [hd1, hd2]
      omega
    · -- (mp - 9) > 2: impossible since mp ≤ 11
      omega

/-- Civil UTC date and time-of-day of an instant given as (unsigned)
seconds since the Unix epoch, as chrono computes it. -/
def civilFromUnix (n : Nat) : Nat × Nat × Nat × Nat × Nat × Nat :=
  match dateFromZ (n / 86400 + 719468) with
  | (y, m, d) => (y, m, d, n % 86400 / 3600, n % 86400 % 3600 / 60, n % 86400 % 60)

/-- Seconds since the Unix epoch of a civil UTC date-time. -/
def unixFromCivil : Nat × Nat × Nat × Nat × Nat × Nat → Nat
  | (y, m, d, h, mi, s) => (zFromDate (y, m, d) - 719468) * 86400 + h * 3600 + mi * 60 + s

theorem unixFromCivil_civilFromUnix (n : Nat) :
    unixFromCivil (civilFromUnix n) = n := by
  have hrt := zFromDate_dateFromZ (n / 86400 + 719468)
  unfold civilFromUnix unixFromCivil
  rcases hdz : dateFromZ (n / 86400 + 719468) with ⟨y, m, d⟩
  rw [hdz] at hrt
  dsimp only
  rw [hrt]
  omega

set_option maxHeartbeats 1000000 in
/-- Field bounds of `civilFromUnix` for instants before the year 9600
(year at most 4 decimal digits, all other fields at most 2). -/
theorem civilFromUnix_bounds (n y m d h mi s : Nat) (hn : n < 240784704000)
    (hc : civilFromUnix n = (y, m, d, h, mi, s)) :
    y < 10000 ∧ m < 100 ∧ d < 100 ∧ h < 100 ∧ mi < 100 ∧ s < 100 := by
  obtain ⟨z, hz, hzb⟩ : ∃ z, n / 86400 + 719468 = z ∧ z < 3506328 :=
    ⟨_, rfl, by omega⟩
  obtain ⟨doe, hdoe, hdlt⟩ : ∃ doeV, z % 146097 = doeV ∧ doeV < 146097 :=
    ⟨_, rfl, by omega⟩
  obtain ⟨era, her, herb⟩ : ∃ eraV, z / 146097 = eraV ∧ eraV ≤ 23 :=
    ⟨_, rfl, by omega⟩
  obtain ⟨hA, hB, hC⟩ := yoe_facts doe hdlt
  obtain ⟨yoe, hyoe⟩ : ∃ yv, (doe - doe / 1460 + doe / 36524 - doe / 146096) / 365 = yv :=
    ⟨_, rfl⟩
  rw [hyoe] at hA hB hC
  obtain ⟨doy, hdoy, hdoyb⟩ :
      ∃ dv, doe - (365 * yoe + yoe / 4 - yoe / 100) = dv ∧ dv ≤ 365 :=
    ⟨_, rfl, by omega⟩
  obtain ⟨mp, hmp, hmp11⟩ : ∃ mv, (5 * doy + 2) / 153 = mv ∧ mv ≤ 11 :=
    ⟨_, rfl, by omega⟩
  unfold civilFromUnix dateFromZ at hc
  dsimp only at hc
  rw [hz, hdoe, her, hyoe, hdoy, hmp] at hc
  simp only [Prod.mk.injEq] at hc
  obtain ⟨hy, hm, hd, hh, hmi, hs⟩ := hc
  rcases Nat.lt_or_ge mp 10 with hcase | hcase
  · rw [if_pos hcase] at hy hm
    rw [if_neg (by omega : ¬ mp + 3 ≤ 2)] at hy
    omega
  · rw [if_neg (by omega : ¬ mp < 10)] at hy hm
    rw [if_pos (by omega : mp - 9 ≤ 2)] at hy
    omega

/-- A decimal digit character, as produced by chrono's zero-padded
numeric fields. -/
def dChar (k : Nat) : Char := Char.ofNat (48 + k % 10)

/-- Two-digit zero-padded decimal rendering (chrono `%m`, `%d`, `%H`,
`%M`, `%S`; all these fields are below 100). -/
def pad2 (k : Nat) : String := String.mk [dChar (k / 10), dChar k]

/-- Four-digit zero-padded decimal rendering of the year (chrono `%Y`;
years outside 0..9999 are rendered with an explicit sign). -/
def pad4 (k : Nat) : String :=
  if k < 10000 then String.mk [dChar (k / 1000), dChar (k / 100), dChar (k / 10), dChar k]
  else "+" ++ Nat.repr k

theorem dChar_inj (x y : Nat) (h : dChar x = dChar y) : x % 10 = y % 10 := by
  have key : ∀ a < 10, ∀ b < 10, Char.ofNat (48 + a) = Char.ofNat (48 + b) → a = b := by decide
  exact key _ (Nat.mod_lt _ (by norm_num)) _ (Nat.mod_lt _ (by norm_num)) h

/-- Compact UTC timestamp `%Y%m%dT%H%M%SZ` of an instant; chrono
rendering used by `resolve_session_log_path` for log file names. -/
def tsCompact (n : Nat) : String :=
  match civilFromUnix n with
  | (y, m, d, h, mi, s) => pad4 y ++ pad2 m ++ pad2 d ++ "T" ++ pad2 h ++ pad2 mi ++ pad2 s ++ "Z"

/-- Human-readable timestamp `%Y-%m-%d %H:%M:%S %Z` of an instant, as
written into session logs.  The Rust code renders in the process-local
timezone; the model fixes that timezone to UTC (the rendering is stored
opaquely and never influences control flow). -/
def format_timestamp (t : Nat) : String :=
  match civilFromUnix t with
  | (y, m, d, h, mi, s) =>
    pad4 y ++ "-" ++ pad2 m ++ "-" ++ pad2 d ++ " " ++ pad2 h ++ ":" ++ pad2 mi ++ ":" ++ pad2 s ++ " UTC"

theorem string_data_append (a b : String) : (a ++ b).data = a.data ++ b.data := rfl

theorem string_data_mk (l : List Char) : (String.mk l).data = l := rfl

theorem tsCompact_data (n y m d h mi s : Nat)
    (hc : civilFromUnix n = (y, m, d, h, mi, s)) (hy : y < 10000) :
    (tsCompact n).data =
      [dChar (y / 1000), dChar (y / 100), dChar (y / 10), dChar y,
       dChar (m / 10), dChar m, dChar (d / 10), dChar d, 'T',
       dChar (h / 10), dChar h, dChar (mi / 10), dChar mi,
       dChar (s / 10), dChar s, 'Z'] := by
  unfold tsCompact
  rw [hc]
  dsimp only
  simp only [string_data_append]
  rw [pad4, if_pos hy]
  simp only [pad2, string_data_mk]
  rfl

theorem tsCompact_data_length (n y m d h mi s : Nat)
    (hc : civilFromUnix n = (y, m, d, h, mi, s)) (hy : y < 10000) :
    (tsCompact n).data.length = 16 := by
  rw [tsCompact_data n y m d h mi s hc hy]
  rfl

theorem tsCompact_inj (a b : Nat) (ha : a < 240784704000) (hb : b < 240784704000)
    (h : tsCompact a = tsCompact b) : a = b := by
  rcases hca : civilFromUnix a with ⟨ya, ma, da, ha2, mia, sa⟩
  rcases hcb : civilFromUnix b with ⟨yb, mb, db, hb2, mib, sb⟩
  obtain ⟨bya, bma, bda, bha, bmia, bsa⟩ := civilFromUnix_bounds a ya ma da ha2 mia sa ha hca
  obtain ⟨byb, bmb, bdb, bhb, bmib, bsb⟩ := civilFromUnix_bounds b yb mb db hb2 mib sb hb hcb
  have h1 := tsCompact_data a ya ma da ha2 mia sa hca bya
  have h2 := tsCompact_data b yb mb db hb2 mib sb hcb byb
  have hdata := congrArg String.data h
  rw [h1, h2] at hdata
  simp only [List.cons.injEq, and_true] at hdata
  obtain ⟨e1, e2, e3, e4, e5, e6, e7, e8, -, e9, e10, e11, e12, e13, e14⟩ := hdata
  have q1 := dChar_inj _ _ e1
  have q2 := dChar_inj _ _ e2
  have q3 := dChar_inj _ _ e3
  have q4 := dChar_inj _ _ e4
  have q5 := dChar_inj _ _ e5
  have q6 := dChar_inj _ _ e6
  have q7 := dChar_inj _ _ e7
  have q8 := dChar_inj _ _ e8
  have q9 := dChar_inj _ _ e9
  have q10 := dChar_inj _ _ e10
  have q11 := dChar_inj _ _ e11
  have q12 := dChar_inj _ _ e12
  have q13 := dChar_inj _ _ e13
  have q14 := dChar_inj _ _ e14
  have hya : ya = yb := by omega
  have hma : ma = mb := by omega
  have hda : da = db := by omega
  have hha : ha2 = hb2 := by omega
  have hmia : mia = mib := by omega
  have hsa : sa = sb := by omega
  have htup : civilFromUnix a = civilFromUnix b := by
    rw [hca, hcb, hya, hma, hda, hha, hmia, hsa]
  calc a = unixFromCivil (civilFromUnix a) := (unixFromCivil_civilFromUnix a).symm
    _ = unixFromCivil (civilFromUnix b) := by rw [htup]
    _ = b := unixFromCivil_civilFromUnix b

/-! ## Machine integers -/

/-- Rust `as i64` interpretation of an integer (two's-complement wrap). -/
def i64wrap (x : Int) : Int := (x + 2 ^ 63) % 2 ^ 64 - 2 ^ 63

/-- Rust `as u64` cast of an integer (wrap modulo `2^64`). -/
def toU64 (x : Int) : Nat := (x % 2 ^ 64).toNat

/-- Rust `i64::saturating_sub`. -/
def i64satSub (a b : Int) : Int := max (-(2 ^ 63)) (min (2 ^ 63 - 1) (a - b))

theorem i64wrap_eq_self (x : Int) (h1 : -(2 ^ 63) ≤ x) (h2 : x < 2 ^ 63) :
    i64wrap x = x := by
  unfold i64wrap
  omega

/-! ## Data model (`lib.rs`) -/

/-- `PomodoroState`: the single active-session record persisted in
`state.json` (`log_path` is serialized under the name `log_file`). -/
structure PomodoroState where
  start_unix : Int
  end_unix : Int
  minutes : Nat
  note : Option String
  log_path : String
  completed_logged : Bool
deriving DecidableEq

/-- `SessionLog`: the per-session durable record. -/
structure SessionLog where
  minutes : Nat
  note : Option String
  started_at : String
  ends_at : String
  completed : Bool
  completed_at : Option String
  canceled : Bool
  canceled_at : Option String
deriving DecidableEq

/-- `PomodoroError` (the `Io`/`Serde` payloads are dropped: the embedded
store operations do not distinguish underlying causes). -/
inductive PomodoroError where
  | InvalidDuration : PomodoroError
  | ActiveSessionRunning : Nat → PomodoroError
  | Io : PomodoroError
  | Serde : PomodoroError
deriving DecidableEq

/-- `Status` returned by `current_status`. -/
inductive Status where
  | NoActive : Status
  | Running (elapsed_secs remaining_secs : Nat) : Status
  | Completed (over_secs : Nat) (just_logged : Bool) : Status
deriving DecidableEq

/-! ## Filesystem model

The data directory is an association list of paths to typed contents.
Reading a path that holds the other record type models a
deserialization failure (the two JSON shapes do not overlap).
`failWrites` lists paths on which `File::create` fails, for fault
injection; reads and deletions are assumed to succeed. -/

inductive FileContent where
  | stateFile : PomodoroState → FileContent
  | logFile : SessionLog → FileContent
deriving DecidableEq

structure FS where
  files : List (String × FileContent)
  failWrites : List String
deriving DecidableEq

def FS.read (fs : FS) (p : String) : Option FileContent :=
  (fs.files.find? (fun e => e.1 == p)).map (fun e => e.2)

def FS.setFile (fs : FS) (p : String) (c : FileContent) : FS :=
  { fs with files := (p, c) :: fs.files.filter (fun e => !(e.1 == p)) }

def FS.removeFile (fs : FS) (p : String) : FS :=
  { fs with files := fs.files.filter (fun e => !(e.1 == p)) }

theorem find?_filter_ne (l : List (String × FileContent)) (p q : String) (h : q ≠ p) :
    (l.filter (fun e => !(e.1 == p))).find? (fun e => e.1 == q) =
      l.find? (fun e => e.1 == q) := by
  induction l with
  | nil => rfl
  | cons a t ih =>
    by_cases hap : a.1 = p
    · have haq : (p == q) = false := by
        rw [beq_eq_false_iff_ne]
        exact fun hc => h hc.symm
      simp [List.filter_cons, List.find?_cons, hap, haq, ih]
    · have hap2 : (a.1 == p) = false := by simpa using hap
      by_cases haq : a.1 = q
      · simp [List.filter_cons, List.find?_cons, hap2, haq, h]
      · have haq2 : (a.1 == q) = false := by simpa using haq
        simp [List.filter_cons, List.find?_cons, hap2, haq2, ih]

theorem FS.read_setFile_self (fs : FS) (p : String) (c : FileContent) :
    (fs.setFile p c).read p = some c := by
  simp [FS.read, FS.setFile, List.find?]

theorem FS.read_setFile_ne (fs : FS) (p q : String) (c : FileContent) (h : q ≠ p) :
    (fs.setFile p c).read q = fs.read q := by
  have hq : (p == q) = false := by
    simp only [beq_eq_false_iff_ne, ne_eq]
    exact fun hc => h hc.symm
  simp only [FS.read, FS.setFile, List.find?, hq, find?_filter_ne _ _ _ h]

theorem FS.read_removeFile_self (fs : FS) (p : String) :
    (fs.removeFile p).read p = none := by
  simp only [FS.read, FS.removeFile]
  induction fs.files with
  | nil => rfl
  | cons a t ih =>
    by_cases hap : a.1 = p
    · simp [List.filter_cons, hap, ih]
    · have hne : (a.1 == p) = false := by simpa using hap
      simp [List.filter_cons, hne, List.find?_cons, ih]

theorem FS.read_removeFile_ne (fs : FS) (p q : String) (h : q ≠ p) :
    (fs.removeFile p).read q = fs.read q := by
  simp only [FS.read, FS.removeFile, find?_filter_ne _ _ _ h]

@[simp] theorem FS.failWrites_setFile (fs : FS) (p : String) (c : FileContent) :
    (fs.setFile p c).failWrites = fs.failWrites := rfl

@[simp] theorem FS.failWrites_removeFile (fs : FS) (p : String) :
    (fs.removeFile p).failWrites = fs.failWrites := rfl

/-! ## Store and state-machine operations (`lib.rs`)

Each fallible operation takes and returns the filesystem, with the
`Except` result alongside: an error return keeps whatever writes already
happened, exactly like early `return Err(..)` after a completed write in
the Rust code. -/

/-- The result of a store operation: outcome plus filesystem after it. -/
abbrev FsResult (α : Type) := Except PomodoroError α × FS

/-- Sequencing of store operations; mirrors Rust's `?` operator. -/
def andThen {α β : Type} (x : FsResult α) (f : α → FS → FsResult β) : FsResult β :=
  match x with
  | (Except.ok a, fs) => f a fs
  | (Except.error e, fs) => (Except.error e, fs)

@[simp] theorem andThen_ok {α β : Type} (a : α) (fs : FS) (f : α → FS → FsResult β) :
    andThen (Except.ok a, fs) f = f a fs := rfl

@[simp] theorem andThen_error {α β : Type} (e : PomodoroError) (fs : FS)
    (f : α → FS → FsResult β) : andThen (Except.error e, fs) f = (Except.error e, fs) := rfl

/-- `system_time_to_unix`: `duration_since(UNIX_EPOCH)` yields whole
`u64` seconds (the `Nat` model; pre-epoch instants collapse to 0 via
`unwrap_or(0)`), then `as i64`. -/
def system_time_to_unix (t : Nat) : Int := i64wrap t

/-- `unix_to_system_time`: `UNIX_EPOCH + Duration::from_secs(unix as u64)`. -/
def unix_to_system_time (unix : Int) : Nat := toU64 unix

/-- `PomodoroState::is_complete_at`. -/
def PomodoroState.is_complete_at (s : PomodoroState) (now : Nat) : Bool :=
  decide (s.end_unix ≤ system_time_to_unix now)

/-- Models Rust `char::is_alphanumeric` (Unicode `Alphabetic` or
`Number`).  The executable model restricts to the ASCII fragment; every
theorem about `sanitize_filename` below is parametric in the exact
extension of this predicate. -/
def isAlphanumericRust (c : Char) : Bool := c.isAlphanum

/-- `sanitize_filename`. -/
def sanitize_filename (s : String) : String :=
  String.mk (s.data.map (fun c =>
    if isAlphanumericRust c || c == '-' || c == '_' || c == '.' then c else '_'))

/-- Path of `state.json` inside the data directory. -/
def state_path : String := "data/state.json"

/-- `dir.join(name)` for the data directory. -/
def dataJoin (name : String) : String := "data/" ++ name

/-- `resolve_session_log_path`.  Directory creation is modelled as
infallible, so the embedded function is total. -/
def resolve_session_log_path (note : Option String) (start_unix : Int) (fs : FS) : String :=
  let sanitized := (note.map sanitize_filename).filter (fun s => !s.isEmpty)
  let timestamp := tsCompact (unix_to_system_time start_unix)
  let base_name := sanitized.getD timestamp
  let candidate := dataJoin (base_name ++ ".json")
  if (fs.read candidate).isSome then
    dataJoin (base_name ++ "-" ++ timestamp ++ ".json")
  else candidate

/-- `write_session_log` (`File::create` + `write_all`; the injected
`failWrites` set decides whether creation fails). -/
def write_session_log (path : String) (log : SessionLog) (fs : FS) : FsResult Unit :=
  if path ∈ fs.failWrites then (Except.error PomodoroError.Io, fs)
  else (Except.ok (), fs.setFile path (FileContent.logFile log))

/-- `read_session_log` (`File::open` fails on a missing file; content of
the other record shape fails deserialization). -/
def read_session_log (path : String) (fs : FS) : FsResult SessionLog :=
  match fs.read path with
  | none => (Except.error PomodoroError.Io, fs)
  | some (FileContent.stateFile _) => (Except.error PomodoroError.Serde, fs)
  | some (FileContent.logFile log) => (Except.ok log, fs)

/-- `initialize_session_log`. -/
def initialize_session_log (path : String) (minutes : Nat) (note : Option String)
    (start_time end_time : Nat) (fs : FS) : FsResult Unit :=
  write_session_log path
    { minutes := minutes, note := note,
      started_at := format_timestamp start_time,
      ends_at := format_timestamp end_time,
      completed := false, completed_at := none,
      canceled := false, canceled_at := none } fs

/-- `mark_log_completed`. -/
def mark_log_completed (path : String) (completed_at : Nat) (fs : FS) : FsResult Unit :=
  andThen (read_session_log path fs) fun log fs =>
    if log.completed then (Except.ok (), fs)
    else write_session_log path
      { log with
        completed := true,
        completed_at := some (format_timestamp completed_at),
        canceled := false, canceled_at := none } fs

/-- `mark_log_canceled`. -/
def mark_log_canceled (path : String) (canceled_at : Nat) (fs : FS) : FsResult Unit :=
  andThen (read_session_log path fs) fun log fs =>
    if log.canceled then (Except.ok (), fs)
    else write_session_log path
      { log with
        canceled := true,
        canceled_at := some (format_timestamp canceled_at),
        completed := false, completed_at := none } fs

/-- `load_state` (missing file is `None`, not an error). -/
def load_state (fs : FS) : FsResult (Option PomodoroState) :=
  match fs.read state_path with
  | none => (Except.ok none, fs)
  | some (FileContent.logFile _) => (Except.error PomodoroError.Serde, fs)
  | some (FileContent.stateFile s) => (Except.ok (some s), fs)

/-- `save_state`. -/
def save_state (state : PomodoroState) (fs : FS) : FsResult Unit :=
  if state_path ∈ fs.failWrites then (Except.error PomodoroError.Io, fs)
  else (Except.ok (), fs.setFile state_path (FileContent.stateFile state))

/-- `remove_state` (checks existence first; removal of an existing file
is modelled as infallible). -/
def remove_state (fs : FS) : FS :=
  if (fs.read state_path).isSome then fs.removeFile state_path else fs

/-- `finalize_completed_session`.  The Rust function mutates its
`&mut PomodoroState` argument; the model returns the updated record. -/
def finalize_completed_session (state : PomodoroState) (now : Nat) (fs : FS) :
    FsResult (Bool × PomodoroState) :=
  if state.completed_logged then (Except.ok (false, state), fs)
  else if !(state.is_complete_at now) then (Except.ok (false, state), fs)
  else
    andThen (mark_log_completed state.log_path now fs) fun _ fs =>
      let state2 := { state with completed_logged := true }
      andThen (save_state state2 fs) fun _ fs => (Except.ok (true, state2), fs)

/-- `start_timer`. -/
def start_timer (now : Nat) (minutes : Nat) (note : Option String) (force : Bool)
    (fs : FS) : FsResult PomodoroState :=
  if minutes = 0 then (Except.error PomodoroError.InvalidDuration, fs)
  else
    let now_unix := system_time_to_unix now
    andThen (load_state fs) fun st fs =>
      andThen
        (match st with
          | none => (Except.ok (), fs)
          | some existing0 =>
            andThen (finalize_completed_session existing0 now fs) fun r fs =>
              let existing := r.2
              if now_unix < existing.end_unix ∧ force = false then
                (Except.error (PomodoroError.ActiveSessionRunning
                  (if now_unix < existing.end_unix then
                    (existing.end_unix - now_unix).toNat
                  else 0)), fs)
              else if now_unix < existing.end_unix ∧ force = true then
                mark_log_canceled existing.log_path now fs
              else (Except.ok (), fs))
        fun _ fs =>
          let start_unix := now_unix
          let end_unix := i64wrap (start_unix + i64wrap (i64wrap (minutes : Int) * 60))
          let log_path := resolve_session_log_path note start_unix fs
          let end_time := unix_to_system_time end_unix
          andThen (initialize_session_log log_path minutes note now end_time fs) fun _ fs =>
            let state : PomodoroState :=
              { start_unix := start_unix, end_unix := end_unix, minutes := minutes,
                note := note, log_path := log_path, completed_logged := false }
            andThen (save_state state fs) fun _ fs => (Except.ok state, fs)

/-- `current_status`. -/
def current_status (now : Nat) (fs : FS) : FsResult Status :=
  andThen (load_state fs) fun st fs =>
    match st with
    | none => (Except.ok Status.NoActive, fs)
    | some state =>
      let now_unix := system_time_to_unix now
      if now_unix < state.end_unix then
        let elapsed := toU64 (i64satSub now_unix state.start_unix)
        let total := toU64 (state.end_unix - state.start_unix)
        (Except.ok (Status.Running elapsed (total - elapsed)), fs)
      else
        andThen (finalize_completed_session state now fs) fun r fs =>
          (Except.ok (Status.Completed (toU64 (now_unix - state.end_unix)) r.1), fs)

/-- `stop_timer`.  The Rust function reads `SystemTime::now()` itself;
`now` models that ambient clock reading. -/
def stop_timer (now : Nat) (fs : FS) : FsResult Unit :=
  andThen (load_state fs) fun st fs =>
    andThen
      (match st with
        | none => (Except.ok (), fs)
        | some state =>
          if state.is_complete_at now then
            andThen (finalize_completed_session state now fs) fun _ fs =>
              (Except.ok (), fs)
          else mark_log_canceled state.log_path now fs)
      fun _ fs => (Except.ok (), remove_state fs)

/-! ## Characterization lemmas for the store operations -/

theorem load_state_some (fs : FS) (s : PomodoroState)
    (h : fs.read state_path = some (FileContent.stateFile s)) :
    load_state fs = (Except.ok (some s), fs) := by
  unfold load_state
  rw [h]

theorem load_state_none (fs : FS) (h : fs.read state_path = none) :
    load_state fs = (Except.ok none, fs) := by
  unfold load_state
  rw [h]

theorem read_session_log_log (path : String) (fs : FS) (log : SessionLog)
    (h : fs.read path = some (FileContent.logFile log)) :
    read_session_log path fs = (Except.ok log, fs) := by
  unfold read_session_log
  rw [h]

theorem mark_log_canceled_noop (path : String) (t : Nat) (fs : FS) (log : SessionLog)
    (h : fs.read path = some (FileContent.logFile log)) (hc : log.canceled = true) :
    mark_log_canceled path t fs = (Except.ok (), fs) := by
  unfold mark_log_canceled
  rw [read_session_log_log path fs log h]
  simp [hc]

theorem mark_log_canceled_write (path : String) (t : Nat) (fs : FS) (log : SessionLog)
    (h : fs.read path = some (FileContent.logFile log)) (hc : log.canceled = false)
    (hw : path ∉ fs.failWrites) :
    mark_log_canceled path t fs =
      (Except.ok (), fs.setFile path (FileContent.logFile
        { log with
          canceled := true, canceled_at := some (format_timestamp t),
          completed := false, completed_at := none })) := by
  unfold mark_log_canceled
  rw [read_session_log_log path fs log h]
  simp [hc, write_session_log, hw]

theorem mark_log_completed_noop (path : String) (t : Nat) (fs : FS) (log : SessionLog)
    (h : fs.read path = some (FileContent.logFile log)) (hc : log.completed = true) :
    mark_log_completed path t fs = (Except.ok (), fs) := by
  unfold mark_log_completed
  rw [read_session_log_log path fs log h]
  simp [hc]

theorem mark_log_completed_write (path : String) (t : Nat) (fs : FS) (log : SessionLog)
    (h : fs.read path = some (FileContent.logFile log)) (hc : log.completed = false)
    (hw : path ∉ fs.failWrites) :
    mark_log_completed path t fs =
      (Except.ok (), fs.setFile path (FileContent.logFile
        { log with
          completed := true, completed_at := some (format_timestamp t),
          canceled := false, canceled_at := none })) := by
  unfold mark_log_completed
  rw [read_session_log_log path fs log h]
  simp [hc, write_session_log, hw]

theorem save_state_write (state : PomodoroState) (fs : FS)
    (hw : state_path ∉ fs.failWrites) :
    save_state state fs =
      (Except.ok (), fs.setFile state_path (FileContent.stateFile state)) := by
  unfold save_state
  simp [hw]

theorem finalize_noop_logged (state : PomodoroState) (now : Nat) (fs : FS)
    (h : state.completed_logged = true) :
    finalize_completed_session state now fs = (Except.ok (false, state), fs) := by
  unfold finalize_completed_session
  simp [h]

theorem finalize_noop_early (state : PomodoroState) (now : Nat) (fs : FS)
    (h : state.is_complete_at now = false) :
    finalize_completed_session state now fs = (Except.ok (false, state), fs) := by
  unfold finalize_completed_session
  by_cases hcl : state.completed_logged <;> simp [hcl, h]

theorem finalize_write (state : PomodoroState) (now : Nat) (fs : FS) (log : SessionLog)
    (hflag : state.completed_logged = false)
    (hcomp : state.is_complete_at now = true)
    (hlog : fs.read state.log_path = some (FileContent.logFile log))
    (hlogc : log.completed = false)
    (hw1 : state.log_path ∉ fs.failWrites)
    (hw2 : state_path ∉ fs.failWrites) :
    finalize_completed_session state now fs =
      (Except.ok (true, { state with completed_logged := true }),
       ((fs.setFile state.log_path (FileContent.logFile
          { log with
            completed := true, completed_at := some (format_timestamp now),
            canceled := false, canceled_at := none })).setFile state_path
         (FileContent.stateFile { state with completed_logged := true }))) := by
  unfold finalize_completed_session
  rw [hflag, hcomp]
  simp only [Bool.false_eq_true, if_false, Bool.not_true]
  rw [mark_log_completed_write state.log_path now fs log hlog hlogc hw1]
  rw [andThen_ok]
  rw [save_state_write _ _ (by simpa using hw2)]
  rfl

theorem finalize_write_logdone (state : PomodoroState) (now : Nat) (fs : FS)
    (log : SessionLog)
    (hflag : state.completed_logged = false)
    (hcomp : state.is_complete_at now = true)
    (hlog : fs.read state.log_path = some (FileContent.logFile log))
    (hlogc : log.completed = true)
    (hw2 : state_path ∉ fs.failWrites) :
    finalize_completed_session state now fs =
      (Except.ok (true, { state with completed_logged := true }),
       fs.setFile state_path
         (FileContent.stateFile { state with completed_logged := true })) := by
  unfold finalize_completed_session
  rw [hflag, hcomp]
  simp only [Bool.false_eq_true, if_false, Bool.not_true]
  rw [mark_log_completed_noop state.log_path now fs log hlog hlogc]
  rw [andThen_ok]
  rw [save_state_write _ _ hw2]
  rfl

/-! ## Claims -/

/-- The character transform that the spec (§4.2, §9) states for
`sanitize_filename`, written from the spec's words: alphanumeric
characters and `-`, `_`, `.` pass through, everything else becomes `_`. -/
def sanitizeCharSpec (c : Char) : Char :=
  if isAlphanumericRust c = true ∨ c = '-' ∨ c = '_' ∨ c = '.' then c else '_'

/-- C9: `sanitize_filename` is the character-wise map of
`sanitizeCharSpec` on every input string: each alphanumeric character
and each of `-`, `_`, `.` passes through unchanged, and every other
character is replaced with `_`. -/
theorem sanitize_filename_charwise (s : String) :
    (sanitize_filename s).data = s.data.map sanitizeCharSpec ∧
    (∀ c : Char, (isAlphanumericRust c = true ∨ c = '-' ∨ c = '_' ∨ c = '.') →
      sanitizeCharSpec c = c) ∧
    (∀ c : Char, isAlphanumericRust c = false → c ≠ '-' → c ≠ '_' → c ≠ '.' →
      sanitizeCharSpec c = '_') := by
  refine ⟨?_, ?_, ?_⟩
  · have hfun : (fun c : Char =>
        if isAlphanumericRust c || c == '-' || c == '_' || c == '.' then c else '_') =
        sanitizeCharSpec := by
      funext c
      unfold sanitizeCharSpec
      by_cases h : isAlphanumericRust c = true ∨ c = '-' ∨ c = '_' ∨ c = '.'
      · rw [if_pos h]
        rcases h with h | h | h | h <;> simp [h]
      · rw [if_neg h]
        push_neg at h
        obtain ⟨h1, h2, h3, h4⟩ := h
        simp [h1, h2, h3, h4]
    unfold sanitize_filename
    rw [string_data_mk, hfun]
  · intro c h
    unfold sanitizeCharSpec
    rw [if_pos h]
  · intro c h1 h2 h3 h4
    unfold sanitizeCharSpec
    rw [if_neg]
    push_neg
    exact ⟨by simp [h1], h2, h3, h4⟩

/-- C9 witness at a concrete string. -/
theorem sanitize_filename_charwise_witness :
    (sanitize_filename "a b!").data = "a b!".data.map sanitizeCharSpec ∧
    sanitize_filename "a b!" = "a_b_" := by
  refine ⟨(sanitize_filename_charwise "a b!").1, by decide⟩

/-- C10: while a persisted session is still running
(`now < end_unix`), `status` is read-only: it returns `Running` and the
filesystem component of the result is exactly the input filesystem —
neither the active-state file nor the session log is written. -/
theorem running_status_performs_no_writes (s : PomodoroState) (fs : FS) (now : Nat)
    (hs : fs.read state_path = some (FileContent.stateFile s))
    (hrun : system_time_to_unix now < s.end_unix) :
    current_status now fs =
      (Except.ok (Status.Running
        (toU64 (i64satSub (system_time_to_unix now) s.start_unix))
        (toU64 (s.end_unix - s.start_unix) -
          toU64 (i64satSub (system_time_to_unix now) s.start_unix))), fs) := by
  unfold current_status
  rw [load_state_some fs s hs]
  simp only [andThen_ok]
  rw [if_pos hrun]

/-- C10 witness: a concrete running session observed by `status`. -/
theorem running_status_performs_no_writes_witness :
    (let s : PomodoroState := ⟨1000, 1060, 1, none, "data/p.json", false⟩
     let fs : FS := ⟨[(state_path, FileContent.stateFile s)], []⟩
     current_status 1059 fs = (Except.ok (Status.Running 59 1), fs)) := by
  have h := running_status_performs_no_writes
    ⟨1000, 1060, 1, none, "data/p.json", false⟩
    ⟨[(state_path, FileContent.stateFile ⟨1000, 1060, 1, none, "data/p.json", false⟩)], []⟩
    1059 (by decide) (by decide)
  simpa using h

/-- C4: starting without `force` while the persisted session is still
unexpired after the finalization attempt fails with
`ActiveSessionRunning` carrying `end_unix - now` seconds, and leaves the
filesystem untouched. -/
theorem start_without_force_rejected_with_remaining
    (now minutes : Nat) (note : Option String) (s : PomodoroState) (fs : FS)
    (hm : minutes ≠ 0)
    (hs : fs.read state_path = some (FileContent.stateFile s))
    (hrun : system_time_to_unix now < s.end_unix) :
    start_timer now minutes note false fs =
      (Except.error (PomodoroError.ActiveSessionRunning
        ((s.end_unix - system_time_to_unix now).toNat)), fs) := by
  have hnoc : s.is_complete_at now = false := by
    unfold PomodoroState.is_complete_at
    simp only [decide_eq_false_iff_not, not_le]
    exact hrun
  unfold start_timer
  rw [if_neg hm]
  rw [load_state_some fs s hs]
  simp only [andThen_ok]
  rw [finalize_noop_early s now fs hnoc]
  simp only [andThen_ok]
  rw [if_pos ⟨hrun, trivial⟩]
  rw [if_pos hrun]
  rfl

/-- C5 (failing input): with persisted `start_unix = 100`,
`end_unix = 200` and clock reading `now = 50 < start_unix`, the code
reports `elapsed = 2^64 - 50` (the negative `i64` difference cast to
`u64`) and `remaining = 0`, not the `elapsed = 0`, `remaining = 100`
that flooring at zero would give. -/
theorem running_status_elapsed_wraps_at_failing_input :
    current_status 50
      ⟨[(state_path, FileContent.stateFile ⟨100, 200, 1, none, "data/x.json", false⟩),
        ("data/x.json", FileContent.logFile ⟨1, none, "a", "b", false, none, false, none⟩)],
       []⟩ =
      (Except.ok (Status.Running 18446744073709551566 0),
       ⟨[(state_path, FileContent.stateFile ⟨100, 200, 1, none, "data/x.json", false⟩),
         ("data/x.json", FileContent.logFile ⟨1, none, "a", "b", false, none, false, none⟩)],
        []⟩) := by
  rfl

/-- C1: exactly-once completion logging.  `finalize` is a no-op
returning "not finalized" whenever `completed_logged` is already set or
`now < end_unix`.  For a persisted, not-yet-logged session whose log
exists, the first `status` call at `now ≥ end_unix` performs the write
setting `completed := true` and reports `just_logged = true`; every
later `status` call (any `now₂ ≥ end_unix`) reports
`just_logged = false` and leaves the filesystem exactly as the first
call left it, so the completion write happens exactly once. -/
theorem status_completion_logged_exactly_once
    (s : PomodoroState) (log : SessionLog) (fs : FS) (now now₂ : Nat)
    (hs : fs.read state_path = some (FileContent.stateFile s))
    (hlog : fs.read s.log_path = some (FileContent.logFile log))
    (hlogc : log.completed = false)
    (hflag : s.completed_logged = false)
    (hw1 : s.log_path ∉ fs.failWrites)
    (hw2 : state_path ∉ fs.failWrites)
    (hend : s.end_unix ≤ system_time_to_unix now)
    (hend₂ : s.end_unix ≤ system_time_to_unix now₂) :
    (∀ (s' : PomodoroState) (now' : Nat) (fs' : FS),
        (s'.completed_logged = true ∨ system_time_to_unix now' < s'.end_unix) →
        finalize_completed_session s' now' fs' = (Except.ok (false, s'), fs')) ∧
    ∃ (fs' : FS) (log' : SessionLog),
      current_status now fs =
        (Except.ok (Status.Completed (toU64 (system_time_to_unix now - s.end_unix)) true),
         fs') ∧
      fs'.read s.log_path = some (FileContent.logFile log') ∧
      log'.completed = true ∧ log'.canceled = false ∧
      current_status now₂ fs' =
        (Except.ok (Status.Completed (toU64 (system_time_to_unix now₂ - s.end_unix)) false),
         fs') := by
  constructor
  · intro s' now' fs' h
    rcases h with h | h
    · exact finalize_noop_logged s' now' fs' h
    · refine finalize_noop_early s' now' fs' ?_
      unfold PomodoroState.is_complete_at
      simp only [decide_eq_false_iff_not, not_le]
      exact h
  · have hne : s.log_path ≠ state_path := by
      intro he
      rw [he, hs] at hlog
      exact FileContent.noConfusion (Option.some.injEq _ _ ▸ hlog)
    have hcomp : s.is_complete_at now = true := by
      unfold PomodoroState.is_complete_at
      simpa using hend
    set s2 : PomodoroState := { s with completed_logged := true } with hs2
    set log2 : SessionLog :=
      { log with
        completed := true, completed_at := some (format_timestamp now),
        canceled := false, canceled_at := none } with hlog2
    set fs2 : FS :=
      (fs.setFile s.log_path (FileContent.logFile log2)).setFile state_path
        (FileContent.stateFile s2) with hfs2
    refine ⟨fs2, log2, ?_, ?_, rfl, rfl, ?_⟩
    · unfold current_status
      rw [load_state_some fs s hs]
      simp only [andThen_ok]
      rw [if_neg (by omega)]
      rw [finalize_write s now fs log hflag hcomp hlog hlogc hw1 hw2]
      rfl
    · rw [hfs2, FS.read_setFile_ne _ _ _ _ hne, FS.read_setFile_self]
    · unfold current_status
      have hs2read : fs2.read state_path = some (FileContent.stateFile s2) := by
        rw [hfs2, FS.read_setFile_self]
      rw [load_state_some fs2 s2 hs2read]
      simp only [andThen_ok]
      have hend2eq : s2.end_unix = s.end_unix := rfl
      rw [if_neg (by rw [hend2eq]; omega)]
      rw [finalize_noop_logged s2 now₂ fs2 rfl]
      rw [andThen_ok, hend2eq]

/-- C1 witness: a 1-minute session started at 0, polled at 60 and 61. -/
theorem status_completion_logged_exactly_once_witness :
    ∃ (fs' : FS) (log' : SessionLog),
      current_status 60
        ⟨[(state_path, FileContent.stateFile ⟨0, 60, 1, none, "data/p.json", false⟩),
          ("data/p.json", FileContent.logFile ⟨1, none, "x", "y", false, none, false, none⟩)],
         []⟩ =
        (Except.ok (Status.Completed 0 true), fs') ∧
      fs'.read "data/p.json" = some (FileContent.logFile log') ∧
      log'.completed = true ∧ log'.canceled = false ∧
      current_status 61 fs' = (Except.ok (Status.Completed 1 false), fs') := by
  have h := (status_completion_logged_exactly_once
    ⟨0, 60, 1, none, "data/p.json", false⟩
    ⟨1, none, "x", "y", false, none, false, none⟩
    ⟨[(state_path, FileContent.stateFile ⟨0, 60, 1, none, "data/p.json", false⟩),
      ("data/p.json", FileContent.logFile ⟨1, none, "x", "y", false, none, false, none⟩)],
     []⟩
    60 61 (by decide) (by decide) rfl rfl (by decide) (by decide)
    (by decide) (by decide)).2
  obtain ⟨fs', log', h1, h2, h3, h4, h5⟩ := h
  dsimp only at h1 h5
  have e1 : toU64 (system_time_to_unix 60 - (60 : Int)) = 0 := by decide
  have e2 : toU64 (system_time_to_unix 61 - (60 : Int)) = 1 := by decide
  rw [e1] at h1
  rw [e2] at h5
  exact ⟨fs', log', h1, h2, h3, h4, h5⟩

/-! ## C2: terminal-flag exclusion -/

/-- A marking call against a fixed log path: either
`mark_log_completed` or `mark_log_canceled` at some instant. -/
inductive MarkOp where
  | completion (t : Nat) : MarkOp
  | cancellation (t : Nat) : MarkOp

/-- The filesystem after a marking call (an error keeps it unchanged). -/
def applyMarkOp (p : String) (op : MarkOp) (fs : FS) : FS :=
  match op with
  | MarkOp.completion t => (mark_log_completed p t fs).2
  | MarkOp.cancellation t => (mark_log_canceled p t fs).2

/-- The invariant: the log at `p`, if readable, never has both terminal
flags set. -/
def terminalFlagsExclusive (p : String) (fs : FS) : Prop :=
  ∀ log : SessionLog, fs.read p = some (FileContent.logFile log) →
    ¬(log.completed = true ∧ log.canceled = true)

theorem mark_log_completed_fs_cases (p : String) (t : Nat) (fs : FS) :
    (mark_log_completed p t fs).2 = fs ∨
    ∃ log : SessionLog, fs.read p = some (FileContent.logFile log) ∧
      log.completed = false ∧
      (mark_log_completed p t fs).2 = fs.setFile p (FileContent.logFile
        { log with
          completed := true, completed_at := some (format_timestamp t),
          canceled := false, canceled_at := none }) := by
  unfold mark_log_completed read_session_log
  rcases hr : fs.read p with - | c
  · left; rfl
  · cases c with
    | stateFile s => left; rfl
    | logFile log =>
      by_cases hc : log.completed
      · left; simp [hc]
      · by_cases hw : p ∈ fs.failWrites
        · left; simp [hc, write_session_log, hw]
        · right
          refine ⟨log, rfl, by simpa using hc, ?_⟩
          simp [hc, write_session_log, hw]

theorem mark_log_canceled_fs_cases (p : String) (t : Nat) (fs : FS) :
    (mark_log_canceled p t fs).2 = fs ∨
    ∃ log : SessionLog, fs.read p = some (FileContent.logFile log) ∧
      log.canceled = false ∧
      (mark_log_canceled p t fs).2 = fs.setFile p (FileContent.logFile
        { log with
          canceled := true, canceled_at := some (format_timestamp t),
          completed := false, completed_at := none }) := by
  unfold mark_log_canceled read_session_log
  rcases hr : fs.read p with - | c
  · left; rfl
  · cases c with
    | stateFile s => left; rfl
    | logFile log =>
      by_cases hc : log.canceled
      · left; simp [hc]
      · by_cases hw : p ∈ fs.failWrites
        · left; simp [hc, write_session_log, hw]
        · right
          refine ⟨log, rfl, by simpa using hc, ?_⟩
          simp [hc, write_session_log, hw]

theorem applyMarkOp_preserves (p : String) (op : MarkOp) (fs : FS)
    (h : terminalFlagsExclusive p fs) :
    terminalFlagsExclusive p (applyMarkOp p op fs) := by
  cases op with
  | completion t =>
    simp only [applyMarkOp]
    rcases mark_log_completed_fs_cases p t fs with hcase | ⟨log, -, -, hcase⟩
    · rw [hcase]; exact h
    · rw [hcase]
      intro log' hread
      rw [FS.read_setFile_self] at hread
      rintro ⟨-, hcan⟩
      injection hread with hread
      injection hread with hread
      rw [← hread] at hcan
      exact Bool.noConfusion hcan
  | cancellation t =>
    simp only [applyMarkOp]
    rcases mark_log_canceled_fs_cases p t fs with hcase | ⟨log, -, -, hcase⟩
    · rw [hcase]; exact h
    · rw [hcase]
      intro log' hread
      rw [FS.read_setFile_self] at hread
      rintro ⟨hcomp, -⟩
      injection hread with hread
      injection hread with hread
      rw [← hread] at hcomp
      exact Bool.noConfusion hcomp

theorem foldl_applyMarkOp_preserves (p : String) (ops : List MarkOp) (fs : FS)
    (h : terminalFlagsExclusive p fs) :
    terminalFlagsExclusive p (ops.foldl (fun fs op => applyMarkOp p op fs) fs) := by
  induction ops generalizing fs with
  | nil => exact h
  | cons op rest ih =>
    exact ih (applyMarkOp p op fs) (applyMarkOp_preserves p op fs h)

/-- C2: mutual exclusion of terminal flags.  After initializing a log
(`completed = canceled = false`) and any finite sequence of
`mark_log_completed`/`mark_log_canceled` calls, the log never has both
flags set; each marking call is idempotent on its own flag (no write
when already set), and a marking call that does set its flag clears the
opposite flag and its timestamp. -/
theorem session_log_terminal_flags_exclusive
    (p : String) (minutes : Nat) (note : Option String) (st et : Nat)
    (fs₀ fs₁ : FS) (ops : List MarkOp)
    (hinit : initialize_session_log p minutes note st et fs₀ = (Except.ok (), fs₁)) :
    (∀ log : SessionLog,
        (ops.foldl (fun fs op => applyMarkOp p op fs) fs₁).read p =
          some (FileContent.logFile log) →
        ¬(log.completed = true ∧ log.canceled = true)) ∧
    (∀ (fs : FS) (log : SessionLog) (t : Nat),
        fs.read p = some (FileContent.logFile log) → log.completed = true →
        mark_log_completed p t fs = (Except.ok (), fs)) ∧
    (∀ (fs : FS) (log : SessionLog) (t : Nat),
        fs.read p = some (FileContent.logFile log) → log.canceled = true →
        mark_log_canceled p t fs = (Except.ok (), fs)) ∧
    (∀ (fs : FS) (log : SessionLog) (t : Nat),
        fs.read p = some (FileContent.logFile log) → log.completed = false →
        p ∉ fs.failWrites →
        (mark_log_completed p t fs).2.read p = some (FileContent.logFile
          { log with
            completed := true, completed_at := some (format_timestamp t),
            canceled := false, canceled_at := none })) ∧
    (∀ (fs : FS) (log : SessionLog) (t : Nat),
        fs.read p = some (FileContent.logFile log) → log.canceled = false →
        p ∉ fs.failWrites →
        (mark_log_canceled p t fs).2.read p = some (FileContent.logFile
          { log with
            canceled := true, canceled_at := some (format_timestamp t),
            completed := false, completed_at := none })) := by
  refine ⟨?_, ?_, ?_, ?_, ?_⟩
  · have hfresh : terminalFlagsExclusive p fs₁ := by
      unfold initialize_session_log write_session_log at hinit
      by_cases hw : p ∈ fs₀.failWrites
      · rw [if_pos hw] at hinit
        exact absurd (congrArg Prod.fst hinit) (by simp)
      · rw [if_neg hw] at hinit
        have hfs₁ := congrArg Prod.snd hinit
        dsimp only at hfs₁
        intro log hread hboth
        rw [← hfs₁, FS.read_setFile_self] at hread
        injection hread with hread
        injection hread with hread
        rw [← hread] at hboth
        exact Bool.noConfusion hboth.1
    exact foldl_applyMarkOp_preserves p ops fs₁ hfresh
  · exact fun fs log t h hc => mark_log_completed_noop p t fs log h hc
  · exact fun fs log t h hc => mark_log_canceled_noop p t fs log h hc
  · intro fs log t h hc hw
    rw [mark_log_completed_write p t fs log h hc hw]
    exact FS.read_setFile_self fs p _
  · intro fs log t h hc hw
    rw [mark_log_canceled_write p t fs log h hc hw]
    exact FS.read_setFile_self fs p _

/-- C2 witness: a fresh log marked canceled then completed — the final
log has `completed = true`, `canceled = false`. -/
theorem session_log_terminal_flags_exclusive_witness :
    initialize_session_log "data/w.json" 1 none 0 60 ⟨[], []⟩ =
      (Except.ok (), (⟨[], []⟩ : FS).setFile "data/w.json" (FileContent.logFile
        ⟨1, none, format_timestamp 0, format_timestamp 60, false, none, false, none⟩)) ∧
    ∀ log : SessionLog,
      ([MarkOp.cancellation 10, MarkOp.completion 20].foldl
          (fun fs op => applyMarkOp "data/w.json" op fs)
          ((⟨[], []⟩ : FS).setFile "data/w.json" (FileContent.logFile
            ⟨1, none, format_timestamp 0, format_timestamp 60, false, none, false, none⟩))).read
          "data/w.json" =
        some (FileContent.logFile log) →
      ¬(log.completed = true ∧ log.canceled = true) := by
  constructor
  · rfl
  · exact (session_log_terminal_flags_exclusive "data/w.json" 1 none 0 60
      ⟨[], []⟩ _ [MarkOp.cancellation 10, MarkOp.completion 20] rfl).1

/-- C4 witness: the spec scenario `start(now=0, minutes=5)` then
`start(now=10, minutes=1)` without force fails with 290 seconds
remaining and leaves the filesystem untouched. -/
theorem start_without_force_rejected_with_remaining_witness :
    start_timer 10 1 none false (start_timer 0 5 none false ⟨[], []⟩).2 =
      (Except.error (PomodoroError.ActiveSessionRunning 290),
       (start_timer 0 5 none false ⟨[], []⟩).2) := by
  have hfs : (start_timer 0 5 none false ⟨[], []⟩).2 =
      ⟨[(state_path, FileContent.stateFile
          ⟨0, 300, 5, none, "data/19700101T000000Z.json", false⟩),
        ("data/19700101T000000Z.json", FileContent.logFile
          ⟨5, none, format_timestamp 0, format_timestamp 300,
           false, none, false, none⟩)], []⟩ := by rfl
  rw [hfs]
  have h := start_without_force_rejected_with_remaining 10 1 none
    ⟨0, 300, 5, none, "data/19700101T000000Z.json", false⟩
    ⟨[(state_path, FileContent.stateFile
        ⟨0, 300, 5, none, "data/19700101T000000Z.json", false⟩),
      ("data/19700101T000000Z.json", FileContent.logFile
        ⟨5, none, format_timestamp 0, format_timestamp 300,
         false, none, false, none⟩)], []⟩
    (by decide) rfl (by decide)
  rw [h]
  have e : (((⟨0, 300, 5, none, "data/19700101T000000Z.json", false⟩ :
      PomodoroState).end_unix - system_time_to_unix 10).toNat) = 290 := by decide
  rw [e]

/-- C6: the stop contract.  With no persisted session, `stop` succeeds
and modifies nothing.  With a persisted session already expired at the
ambient clock reading, it finalizes: the log ends completed and not
canceled (assuming the §3 invariant that `completed_logged` is only set
after the log was marked completed).  With a still-running session, it
marks the log canceled at the current time.  In both non-empty cases the
active-session record is removed. -/
theorem stop_timer_contract (fs : FS) (now : Nat) :
    (fs.read state_path = none → stop_timer now fs = (Except.ok (), fs)) ∧
    (∀ (s : PomodoroState) (log : SessionLog),
      fs.read state_path = some (FileContent.stateFile s) →
      fs.read s.log_path = some (FileContent.logFile log) →
      s.is_complete_at now = true →
      s.log_path ∉ fs.failWrites → state_path ∉ fs.failWrites →
      ((s.completed_logged = false ∧ log.completed = false) ∨
        (log.completed = true ∧ log.canceled = false)) →
      ∃ (fs' : FS) (log' : SessionLog),
        stop_timer now fs = (Except.ok (), fs') ∧
        fs'.read s.log_path = some (FileContent.logFile log') ∧
        log'.completed = true ∧ log'.canceled = false ∧
        fs'.read state_path = none) ∧
    (∀ (s : PomodoroState) (log : SessionLog),
      fs.read state_path = some (FileContent.stateFile s) →
      fs.read s.log_path = some (FileContent.logFile log) →
      s.is_complete_at now = false →
      log.canceled = false →
      s.log_path ∉ fs.failWrites →
      ∃ fs' : FS,
        stop_timer now fs = (Except.ok (), fs') ∧
        fs'.read s.log_path = some (FileContent.logFile
          { log with
            canceled := true, canceled_at := some (format_timestamp now),
            completed := false, completed_at := none }) ∧
        fs'.read state_path = none) := by
  refine ⟨?_, ?_, ?_⟩
  · intro h
    unfold stop_timer
    rw [load_state_none fs h]
    simp only [andThen_ok]
    rw [remove_state, h]
    rfl
  · intro s log hs hlog hcomp hw1 hw2 hinv
    have hne : s.log_path ≠ state_path := by
      intro he
      rw [he, hs] at hlog
      exact FileContent.noConfusion (Option.some.injEq _ _ ▸ hlog)
    rcases hinv with ⟨hflag, hlogc⟩ | ⟨hlogc, hlogcanc⟩
    · -- not yet logged: finalize writes the log and the flag, then the
      -- state record is removed
      refine ⟨((fs.setFile s.log_path (FileContent.logFile
          { log with
            completed := true, completed_at := some (format_timestamp now),
            canceled := false, canceled_at := none })).setFile state_path
          (FileContent.stateFile { s with completed_logged := true })).removeFile
          state_path,
        { log with
          completed := true, completed_at := some (format_timestamp now),
          canceled := false, canceled_at := none }, ?_, ?_, rfl, rfl, ?_⟩
      · unfold stop_timer
        rw [load_state_some fs s hs]
        rw [andThen_ok]
        show andThen (if s.is_complete_at now then _ else _) _ = _
        rw [if_pos hcomp]
        rw [finalize_write s now fs log hflag hcomp hlog hlogc hw1 hw2]
        rw [andThen_ok, andThen_ok]
        rw [remove_state, FS.read_setFile_self]
        rfl
      · rw [FS.read_removeFile_ne _ _ _ hne, FS.read_setFile_ne _ _ _ _ hne,
          FS.read_setFile_self]
      · exact FS.read_removeFile_self _ _
    · -- already logged or log already completed
      by_cases hflag : s.completed_logged
      · -- finalize is a no-op; the record is removed
        refine ⟨fs.removeFile state_path, log, ?_, ?_, hlogc, hlogcanc, ?_⟩
        · unfold stop_timer
          rw [load_state_some fs s hs]
          rw [andThen_ok]
          show andThen (if s.is_complete_at now then _ else _) _ = _
          rw [if_pos hcomp]
          rw [finalize_noop_logged s now fs hflag]
          rw [andThen_ok, andThen_ok]
          rw [remove_state, hs]
          rfl
        · rw [FS.read_removeFile_ne _ _ _ hne]
          exact hlog
        · exact FS.read_removeFile_self _ _
      · -- flag not yet set but log already completed: finalize only
        -- updates the flag, then the record is removed
        refine ⟨(fs.setFile state_path
            (FileContent.stateFile { s with completed_logged := true })).removeFile
            state_path, log, ?_, ?_, hlogc, hlogcanc, ?_⟩
        · unfold stop_timer
          rw [load_state_some fs s hs]
          rw [andThen_ok]
          show andThen (if s.is_complete_at now then _ else _) _ = _
          rw [if_pos hcomp]
          rw [finalize_write_logdone s now fs log (by simpa using hflag) hcomp hlog
            hlogc hw2]
          rw [andThen_ok, andThen_ok]
          rw [remove_state, FS.read_setFile_self]
          rfl
        · rw [FS.read_removeFile_ne _ _ _ hne, FS.read_setFile_ne _ _ _ _ hne]
          exact hlog
        · exact FS.read_removeFile_self _ _
  · intro s log hs hlog hcomp hlogcanc hw1
    have hne : s.log_path ≠ state_path := by
      intro he
      rw [he, hs] at hlog
      exact FileContent.noConfusion (Option.some.injEq _ _ ▸ hlog)
    refine ⟨(fs.setFile s.log_path (FileContent.logFile
        { log with
          canceled := true, canceled_at := some (format_timestamp now),
          completed := false, completed_at := none })).removeFile state_path,
      ?_, ?_, ?_⟩
    · unfold stop_timer
      rw [load_state_some fs s hs]
      rw [andThen_ok]
      show andThen (if s.is_complete_at now then _ else _) _ = _
      rw [if_neg (by simp [hcomp])]
      rw [mark_log_canceled_write s.log_path now fs log hlog hlogcanc hw1]
      rw [andThen_ok]
      rw [remove_state, FS.read_setFile_ne _ _ _ _ (Ne.symm hne), hs]
      rfl
    · rw [FS.read_removeFile_ne _ _ _ hne, FS.read_setFile_self]
    · exact FS.read_removeFile_self _ _

/-- C6 witness: an expired session stopped at `now = 100` ends with a
completed, not-canceled log and no state file; also exercises the
no-state case at a concrete empty filesystem. -/
theorem stop_timer_contract_witness :
    stop_timer 7 (⟨[], []⟩ : FS) = (Except.ok (), (⟨[], []⟩ : FS)) ∧
    ∃ (fs' : FS) (log' : SessionLog),
      stop_timer 100
        ⟨[(state_path, FileContent.stateFile ⟨0, 60, 1, none, "data/p.json", false⟩),
          ("data/p.json", FileContent.logFile
            ⟨1, none, "x", "y", false, none, false, none⟩)], []⟩ =
        (Except.ok (), fs') ∧
      fs'.read "data/p.json" = some (FileContent.logFile log') ∧
      log'.completed = true ∧ log'.canceled = false ∧
      fs'.read state_path = none := by
  constructor
  · exact (stop_timer_contract ⟨[], []⟩ 7).1 rfl
  · exact (stop_timer_contract
      ⟨[(state_path, FileContent.stateFile ⟨0, 60, 1, none, "data/p.json", false⟩),
        ("data/p.json", FileContent.logFile
          ⟨1, none, "x", "y", false, none, false, none⟩)], []⟩ 100).2.1
      ⟨0, 60, 1, none, "data/p.json", false⟩
      ⟨1, none, "x", "y", false, none, false, none⟩
      rfl rfl (by decide) (by decide) (by decide) (Or.inl ⟨rfl, rfl⟩)

/-- `end_unix` as computed by `start_timer`:
`now + (minutes as i64) * 60` in wrapping `i64` arithmetic. -/
def new_end_unix (now minutes : Nat) : Int :=
  i64wrap (system_time_to_unix now + i64wrap (i64wrap (minutes : Int) * 60))

/-- The fresh `SessionLog` record written by `start_timer` via
`initialize_session_log`. -/
def new_session_log (now minutes : Nat) (note : Option String) : SessionLog :=
  { minutes := minutes, note := note,
    started_at := format_timestamp now,
    ends_at := format_timestamp (unix_to_system_time (new_end_unix now minutes)),
    completed := false, completed_at := none,
    canceled := false, canceled_at := none }

/-- The new `PomodoroState` record `start_timer` persists on success. -/
def new_state (now minutes : Nat) (note : Option String) (p : String) : PomodoroState :=
  { start_unix := system_time_to_unix now, end_unix := new_end_unix now minutes,
    minutes := minutes, note := note, log_path := p, completed_logged := false }

/-- The log record after `mark_log_canceled` sets the flag. -/
def canceledLog (log : SessionLog) (t : Nat) : SessionLog :=
  { log with
    canceled := true, canceled_at := some (format_timestamp t),
    completed := false, completed_at := none }

/-- The log record after `mark_log_completed` sets the flag. -/
def completedLog (log : SessionLog) (t : Nat) : SessionLog :=
  { log with
    completed := true, completed_at := some (format_timestamp t),
    canceled := false, canceled_at := none }

/-- C7: atomicity of `start` on log-initialization failure.  In every
configuration in which a `start` call reaches the initialization of the
new `SessionLog` and that write fails, the call returns the IO error and
the active-state store is never written with the new session: the state
file afterwards holds exactly what the prefix of the call left there
(nothing; the untouched prior session; or the prior session with only
its `completed_logged` flag updated by finalization).  The cases are:
(a) no persisted session; (b) unexpired session overwritten with
`force` whose log gets marked canceled, and (b') with its log already
canceled; (c) expired, not yet logged session that finalization marks
completed (and (c') whose log was already completed); (d) expired
session already flagged `completed_logged`. -/
theorem start_atomicity_on_log_init_failure
    (now minutes : Nat) (note : Option String) (force : Bool) (fs : FS)
    (hm : minutes ≠ 0) :
    (fs.read state_path = none →
      resolve_session_log_path note (system_time_to_unix now) fs ∈ fs.failWrites →
      start_timer now minutes note force fs = (Except.error PomodoroError.Io, fs) ∧
      (start_timer now minutes note force fs).2.read state_path = none) ∧
    (∀ (s : PomodoroState) (log : SessionLog),
      fs.read state_path = some (FileContent.stateFile s) →
      system_time_to_unix now < s.end_unix →
      fs.read s.log_path = some (FileContent.logFile log) →
      log.canceled = false → s.log_path ∉ fs.failWrites →
      resolve_session_log_path note (system_time_to_unix now)
          (fs.setFile s.log_path (FileContent.logFile (canceledLog log now))) ∈
        fs.failWrites →
      start_timer now minutes note true fs =
        (Except.error PomodoroError.Io,
         fs.setFile s.log_path (FileContent.logFile (canceledLog log now))) ∧
      (start_timer now minutes note true fs).2.read state_path =
        some (FileContent.stateFile s)) ∧
    (∀ (s : PomodoroState) (log : SessionLog),
      fs.read state_path = some (FileContent.stateFile s) →
      system_time_to_unix now < s.end_unix →
      fs.read s.log_path = some (FileContent.logFile log) →
      log.canceled = true →
      resolve_session_log_path note (system_time_to_unix now) fs ∈ fs.failWrites →
      start_timer now minutes note true fs = (Except.error PomodoroError.Io, fs) ∧
      (start_timer now minutes note true fs).2.read state_path =
        some (FileContent.stateFile s)) ∧
    (∀ (s : PomodoroState) (log : SessionLog),
      fs.read state_path = some (FileContent.stateFile s) →
      s.completed_logged = false → s.is_complete_at now = true →
      fs.read s.log_path = some (FileContent.logFile log) →
      log.completed = false →
      s.log_path ∉ fs.failWrites → state_path ∉ fs.failWrites →
      resolve_session_log_path note (system_time_to_unix now)
          ((fs.setFile s.log_path (FileContent.logFile (completedLog log now))).setFile
            state_path
            (FileContent.stateFile { s with completed_logged := true })) ∈
        fs.failWrites →
      start_timer now minutes note force fs =
        (Except.error PomodoroError.Io,
         (fs.setFile s.log_path (FileContent.logFile (completedLog log now))).setFile
           state_path (FileContent.stateFile { s with completed_logged := true })) ∧
      (start_timer now minutes note force fs).2.read state_path =
        some (FileContent.stateFile { s with completed_logged := true })) ∧
    (∀ (s : PomodoroState) (log : SessionLog),
      fs.read state_path = some (FileContent.stateFile s) →
      s.completed_logged = false → s.is_complete_at now = true →
      fs.read s.log_path = some (FileContent.logFile log) →
      log.completed = true → state_path ∉ fs.failWrites →
      resolve_session_log_path note (system_time_to_unix now)
          (fs.setFile state_path
            (FileContent.stateFile { s with completed_logged := true })) ∈
        fs.failWrites →
      start_timer now minutes note force fs =
        (Except.error PomodoroError.Io,
         fs.setFile state_path
           (FileContent.stateFile { s with completed_logged := true })) ∧
      (start_timer now minutes note force fs).2.read state_path =
        some (FileContent.stateFile { s with completed_logged := true })) ∧
    (∀ s : PomodoroState,
      fs.read state_path = some (FileContent.stateFile s) →
      s.completed_logged = true →
      ¬ system_time_to_unix now < s.end_unix →
      resolve_session_log_path note (system_time_to_unix now) fs ∈ fs.failWrites →
      start_timer now minutes note force fs = (Except.error PomodoroError.Io, fs) ∧
      (start_timer now minutes note force fs).2.read state_path =
        some (FileContent.stateFile s)) := by
  refine ⟨?_, ?_, ?_, ?_, ?_, ?_⟩
  · -- (a) no persisted session
    intro hsp hfail
    have heq : start_timer now minutes note force fs =
        (Except.error PomodoroError.Io, fs) := by
      unfold start_timer
      rw [if_neg hm, load_state_none fs hsp, andThen_ok]
      show andThen ((Except.ok (), fs) : FsResult Unit) _ = _
      rw [andThen_ok]
      show andThen (initialize_session_log
        (resolve_session_log_path note (system_time_to_unix now) fs) minutes note now
        (unix_to_system_time (new_end_unix now minutes)) fs) _ = _
      unfold initialize_session_log write_session_log
      rw [if_pos hfail]
      rfl
    exact ⟨heq, by rw [heq]; exact hsp⟩
  · -- (b) unexpired session, force, log freshly canceled
    intro s log hsp hrun hlog hlc hw1 hfail
    have hnoc : s.is_complete_at now = false := by
      unfold PomodoroState.is_complete_at
      simp only [decide_eq_false_iff_not, not_le]
      exact hrun
    have hne : s.log_path ≠ state_path := by
      intro he
      rw [he, hsp] at hlog
      exact FileContent.noConfusion (Option.some.injEq _ _ ▸ hlog)
    have heq : start_timer now minutes note true fs =
        (Except.error PomodoroError.Io,
         fs.setFile s.log_path (FileContent.logFile (canceledLog log now))) := by
      unfold start_timer
      rw [if_neg hm, load_state_some fs s hsp, andThen_ok]
      show andThen (andThen (finalize_completed_session s now fs) _) _ = _
      rw [finalize_noop_early s now fs hnoc, andThen_ok]
      rw [if_neg (by rintro ⟨-, hff⟩; exact Bool.noConfusion hff)]
      rw [if_pos ⟨hrun, rfl⟩]
      rw [mark_log_canceled_write s.log_path now fs log hlog hlc hw1]
      rw [andThen_ok]
      show andThen (initialize_session_log
        (resolve_session_log_path note (system_time_to_unix now)
          (fs.setFile s.log_path (FileContent.logFile (canceledLog log now))))
        minutes note now (unix_to_system_time (new_end_unix now minutes))
        (fs.setFile s.log_path (FileContent.logFile (canceledLog log now)))) _ = _
      unfold initialize_session_log write_session_log
      rw [if_pos (by simpa using hfail)]
      rfl
    refine ⟨heq, ?_⟩
    rw [heq]
    show (fs.setFile s.log_path (FileContent.logFile (canceledLog log now))).read
      state_path = _
    rw [FS.read_setFile_ne _ _ _ _ (Ne.symm hne)]
    exact hsp
  · -- (b') unexpired session, force, log already canceled
    intro s log hsp hrun hlog hlc hfail
    have hnoc : s.is_complete_at now = false := by
      unfold PomodoroState.is_complete_at
      simp only [decide_eq_false_iff_not, not_le]
      exact hrun
    have heq : start_timer now minutes note true fs =
        (Except.error PomodoroError.Io, fs) := by
      unfold start_timer
      rw [if_neg hm, load_state_some fs s hsp, andThen_ok]
      show andThen (andThen (finalize_completed_session s now fs) _) _ = _
      rw [finalize_noop_early s now fs hnoc, andThen_ok]
      rw [if_neg (by rintro ⟨-, hff⟩; exact Bool.noConfusion hff)]
      rw [if_pos ⟨hrun, rfl⟩]
      rw [mark_log_canceled_noop s.log_path now fs log hlog hlc]
      rw [andThen_ok]
      show andThen (initialize_session_log
        (resolve_session_log_path note (system_time_to_unix now) fs) minutes note now
        (unix_to_system_time (new_end_unix now minutes)) fs) _ = _
      unfold initialize_session_log write_session_log
      rw [if_pos hfail]
      rfl
    exact ⟨heq, by rw [heq]; exact hsp⟩
  · -- (c) expired unlogged session whose log gets marked completed
    intro s log hsp hflag hcomp hlog hlc hw1 hw2 hfail
    have hnotrun : ¬ system_time_to_unix now < s.end_unix := by
      unfold PomodoroState.is_complete_at at hcomp
      simp only [decide_eq_true_eq] at hcomp
      omega
    have heq : start_timer now minutes note force fs =
        (Except.error PomodoroError.Io,
         (fs.setFile s.log_path (FileContent.logFile (completedLog log now))).setFile
           state_path (FileContent.stateFile { s with completed_logged := true })) := by
      unfold start_timer
      rw [if_neg hm, load_state_some fs s hsp, andThen_ok]
      show andThen (andThen (finalize_completed_session s now fs) _) _ = _
      rw [finalize_write s now fs log hflag hcomp hlog hlc hw1 hw2]
      rw [andThen_ok]
      rw [if_neg (by rintro ⟨hr, -⟩; exact hnotrun hr)]
      rw [if_neg (by rintro ⟨hr, -⟩; exact hnotrun hr)]
      rw [andThen_ok]
      show andThen (initialize_session_log
        (resolve_session_log_path note (system_time_to_unix now)
          ((fs.setFile s.log_path (FileContent.logFile (completedLog log now))).setFile
            state_path (FileContent.stateFile { s with completed_logged := true })))
        minutes note now (unix_to_system_time (new_end_unix now minutes))
        ((fs.setFile s.log_path (FileContent.logFile (completedLog log now))).setFile
          state_path (FileContent.stateFile { s with completed_logged := true }))) _ = _
      unfold initialize_session_log write_session_log
      rw [if_pos (by simpa using hfail)]
      rfl
    refine ⟨heq, ?_⟩
    rw [heq]
    exact FS.read_setFile_self _ _ _
  · -- (c') expired unlogged session whose log is already completed
    intro s log hsp hflag hcomp hlog hlc hw2 hfail
    have hnotrun : ¬ system_time_to_unix now < s.end_unix := by
      unfold PomodoroState.is_complete_at at hcomp
      simp only [decide_eq_true_eq] at hcomp
      omega
    have heq : start_timer now minutes note force fs =
        (Except.error PomodoroError.Io,
         fs.setFile state_path
           (FileContent.stateFile { s with completed_logged := true })) := by
      unfold start_timer
      rw [if_neg hm, load_state_some fs s hsp, andThen_ok]
      show andThen (andThen (finalize_completed_session s now fs) _) _ = _
      rw [finalize_write_logdone s now fs log hflag hcomp hlog hlc hw2]
      rw [andThen_ok]
      rw [if_neg (by rintro ⟨hr, -⟩; exact hnotrun hr)]
      rw [if_neg (by rintro ⟨hr, -⟩; exact hnotrun hr)]
      rw [andThen_ok]
      show andThen (initialize_session_log
        (resolve_session_log_path note (system_time_to_unix now)
          (fs.setFile state_path
            (FileContent.stateFile { s with completed_logged := true })))
        minutes note now (unix_to_system_time (new_end_unix now minutes))
        (fs.setFile state_path
          (FileContent.stateFile { s with completed_logged := true }))) _ = _
      unfold initialize_session_log write_session_log
      rw [if_pos (by simpa using hfail)]
      rfl
    refine ⟨heq, ?_⟩
    rw [heq]
    exact FS.read_setFile_self _ _ _
  · -- (d) expired session already flagged
    intro s hsp hflag hnotrun hfail
    have heq : start_timer now minutes note force fs =
        (Except.error PomodoroError.Io, fs) := by
      unfold start_timer
      rw [if_neg hm, load_state_some fs s hsp, andThen_ok]
      show andThen (andThen (finalize_completed_session s now fs) _) _ = _
      rw [finalize_noop_logged s now fs hflag]
      rw [andThen_ok]
      rw [if_neg (by rintro ⟨hr, -⟩; exact hnotrun hr)]
      rw [if_neg (by rintro ⟨hr, -⟩; exact hnotrun hr)]
      rw [andThen_ok]
      show andThen (initialize_session_log
        (resolve_session_log_path note (system_time_to_unix now) fs) minutes note now
        (unix_to_system_time (new_end_unix now minutes)) fs) _ = _
      unfold initialize_session_log write_session_log
      rw [if_pos hfail]
      rfl
    exact ⟨heq, by rw [heq]; exact hsp⟩

set_option maxRecDepth 8192 in
/-- C7 witness: with no session and the resolved log path injected to
fail, `start(0, 1)` returns the IO error and writes no state file. -/
theorem start_atomicity_on_log_init_failure_witness :
    start_timer 0 1 none false ⟨[], ["data/19700101T000000Z.json"]⟩ =
      (Except.error PomodoroError.Io, ⟨[], ["data/19700101T000000Z.json"]⟩) ∧
    (start_timer 0 1 none false
      ⟨[], ["data/19700101T000000Z.json"]⟩).2.read state_path = none := by
  exact (start_atomicity_on_log_init_failure 0 1 none false
    ⟨[], ["data/19700101T000000Z.json"]⟩ (by decide)).1 rfl (by decide)

/-- A filesystem exhibiting the `resolve_session_log_path` fallback
collision: the persisted session was started in the same second and with
the same note as the new forced start, its log sits at the fallback name
`a-19700101T001640Z.json`, and the plain candidate `a.json` also
exists. -/
def forceCollisionFS : FS :=
  ⟨[(state_path, FileContent.stateFile
      ⟨1000, 1600, 10, some "a", "data/a-19700101T001640Z.json", false⟩),
    ("data/a.json", FileContent.logFile
      ⟨1, none, "u", "v", false, none, false, none⟩),
    ("data/a-19700101T001640Z.json", FileContent.logFile
      ⟨10, some "a", "x", "y", false, none, false, none⟩)], []⟩

/-- C3 counterexample: `start(now=1000, minutes=1, note="a", force=true)`
against `forceCollisionFS` satisfies the claim's premises (a persisted
unexpired session, `now < end_unix = 1600`), succeeds, and resolves the
new log path to the prior session's own `log_path` (the fallback
candidate is not re-checked for existence).  `initialize_session_log`
then overwrites the just-canceled prior log with a fresh record, so the
prior session's log ends with `canceled = false`, not `canceled = true`
as the claim states. -/
theorem force_overwrite_same_second_counterexample :
    forceCollisionFS.read state_path = some (FileContent.stateFile
      ⟨1000, 1600, 10, some "a", "data/a-19700101T001640Z.json", false⟩) ∧
    system_time_to_unix 1000 < (1600 : Int) ∧
    (start_timer 1000 1 (some "a") true forceCollisionFS).1 =
      Except.ok ⟨1000, 1060, 1, some "a", "data/a-19700101T001640Z.json", false⟩ ∧
    (start_timer 1000 1 (some "a") true forceCollisionFS).2.read
        "data/a-19700101T001640Z.json" =
      some (FileContent.logFile
        ⟨1, some "a", format_timestamp 1000, format_timestamp 1060,
         false, none, false, none⟩) ∧
    (⟨1, some "a", format_timestamp 1000, format_timestamp 1060,
      false, none, false, none⟩ : SessionLog).canceled = false := by
  exact ⟨rfl, by decide, rfl, rfl, rfl⟩

/-- C3 (amended): force overwrite.  If the newly resolved log path
differs from the prior session's `log_path` (which the counterexample
shows can fail when the fallback candidate collides with it), then
starting with `force = true` over a persisted unexpired session with a
not-yet-canceled log marks that log canceled at `now` and returns a new
`ActiveSession` with `start_unix = now`,
`end_unix = now + minutes * 60`, the new `minutes` and `note`, the
resolved `log_path`, and `completed_logged = false` (`now` and
`now + minutes * 60` within `i64` range). -/
theorem force_overwrite_cancels_prior_log
    (now minutes : Nat) (note : Option String) (s : PomodoroState) (log : SessionLog)
    (fs : FS)
    (hm : minutes ≠ 0)
    (hsp : fs.read state_path = some (FileContent.stateFile s))
    (hrun : system_time_to_unix now < s.end_unix)
    (hlog : fs.read s.log_path = some (FileContent.logFile log))
    (hlc : log.canceled = false)
    (hw1 : s.log_path ∉ fs.failWrites)
    (hnewp : resolve_session_log_path note (system_time_to_unix now)
        (fs.setFile s.log_path (FileContent.logFile (canceledLog log now))) ≠ s.log_path)
    (hw2 : resolve_session_log_path note (system_time_to_unix now)
        (fs.setFile s.log_path (FileContent.logFile (canceledLog log now))) ∉
      fs.failWrites)
    (hw3 : state_path ∉ fs.failWrites)
    (hn : system_time_to_unix now = (now : Int))
    (hr : (now : Int) + (minutes : Int) * 60 < 2 ^ 63) :
    ∃ fs' : FS,
      start_timer now minutes note true fs =
        (Except.ok (new_state now minutes note
          (resolve_session_log_path note (system_time_to_unix now)
            (fs.setFile s.log_path (FileContent.logFile (canceledLog log now))))), fs') ∧
      new_state now minutes note
          (resolve_session_log_path note (system_time_to_unix now)
            (fs.setFile s.log_path (FileContent.logFile (canceledLog log now)))) =
        ⟨system_time_to_unix now, system_time_to_unix now + (minutes : Int) * 60,
         minutes, note,
         resolve_session_log_path note (system_time_to_unix now)
           (fs.setFile s.log_path (FileContent.logFile (canceledLog log now))),
         false⟩ ∧
      fs'.read s.log_path = some (FileContent.logFile (canceledLog log now)) ∧
      (canceledLog log now).canceled = true ∧
      (canceledLog log now).canceled_at = some (format_timestamp now) ∧
      (canceledLog log now).completed = false := by
  have hnoc : s.is_complete_at now = false := by
    unfold PomodoroState.is_complete_at
    simp only [decide_eq_false_iff_not, not_le]
    exact hrun
  have hne : s.log_path ≠ state_path := by
    intro he
    rw [he, hsp] at hlog
    exact FileContent.noConfusion (Option.some.injEq _ _ ▸ hlog)
  have hwrap : i64wrap (system_time_to_unix now + i64wrap (i64wrap (minutes : Int) * 60)) =
      system_time_to_unix now + (minutes : Int) * 60 := by
    rw [hn]
    unfold i64wrap
    omega
  refine ⟨((fs.setFile s.log_path (FileContent.logFile (canceledLog log now))).setFile
      (resolve_session_log_path note (system_time_to_unix now)
        (fs.setFile s.log_path (FileContent.logFile (canceledLog log now))))
      (FileContent.logFile (new_session_log now minutes note))).setFile state_path
      (FileContent.stateFile (new_state now minutes note
        (resolve_session_log_path note (system_time_to_unix now)
          (fs.setFile s.log_path (FileContent.logFile (canceledLog log now)))))),
    ?_, ?_, ?_, rfl, rfl, rfl⟩
  · unfold start_timer
    rw [if_neg hm, load_state_some fs s hsp, andThen_ok]
    show andThen (andThen (finalize_completed_session s now fs) _) _ = _
    rw [finalize_noop_early s now fs hnoc, andThen_ok]
    rw [if_neg (by rintro ⟨-, hff⟩; exact Bool.noConfusion hff)]
    rw [if_pos ⟨hrun, rfl⟩]
    rw [mark_log_canceled_write s.log_path now fs log hlog hlc hw1]
    rw [andThen_ok]
    show andThen (initialize_session_log
      (resolve_session_log_path note (system_time_to_unix now)
        (fs.setFile s.log_path (FileContent.logFile (canceledLog log now))))
      minutes note now (unix_to_system_time (new_end_unix now minutes))
      (fs.setFile s.log_path (FileContent.logFile (canceledLog log now)))) _ = _
    unfold initialize_session_log write_session_log
    rw [if_neg (by simpa using hw2)]
    rw [andThen_ok]
    show andThen (save_state (new_state now minutes note
      (resolve_session_log_path note (system_time_to_unix now)
        (fs.setFile s.log_path (FileContent.logFile (canceledLog log now))))) _) _ = _
    unfold save_state
    rw [if_neg (by simpa using hw3)]
    rw [andThen_ok]
    rfl
  · unfold new_state new_end_unix
    rw [hwrap]
  · rw [FS.read_setFile_ne _ _ _ _ hne,
      FS.read_setFile_ne _ _ _ _ (Ne.symm hnewp), FS.read_setFile_self]

/-- C3 witness: forcing a 1-minute session with note `"b"` at `now = 10`
over a 5-minute session started at 0 with the same note: the prior log
ends canceled at time 10 and the new session has `start_unix = 10`,
`end_unix = 70`, the fallback log path. -/
theorem force_overwrite_cancels_prior_log_witness :
    ∃ fs' : FS,
      start_timer 10 1 (some "b") true
        ⟨[(state_path, FileContent.stateFile ⟨0, 300, 5, some "b", "data/b.json", false⟩),
          ("data/b.json", FileContent.logFile
            ⟨5, some "b", "x", "y", false, none, false, none⟩)], []⟩ =
        (Except.ok (new_state 10 1 (some "b")
          (resolve_session_log_path (some "b") (system_time_to_unix 10)
            ((⟨[(state_path, FileContent.stateFile
                 ⟨0, 300, 5, some "b", "data/b.json", false⟩),
               ("data/b.json", FileContent.logFile
                 ⟨5, some "b", "x", "y", false, none, false, none⟩)], []⟩ : FS).setFile
              "data/b.json"
              (FileContent.logFile (canceledLog
                ⟨5, some "b", "x", "y", false, none, false, none⟩ 10))))), fs') ∧
      fs'.read "data/b.json" = some (FileContent.logFile (canceledLog
        ⟨5, some "b", "x", "y", false, none, false, none⟩ 10)) ∧
      (canceledLog ⟨5, some "b", "x", "y", false, none, false, none⟩ 10).canceled = true := by
  obtain ⟨fs', h1, -, h2, h3, -, -⟩ := force_overwrite_cancels_prior_log 10 1 (some "b")
    ⟨0, 300, 5, some "b", "data/b.json", false⟩
    ⟨5, some "b", "x", "y", false, none, false, none⟩
    ⟨[(state_path, FileContent.stateFile ⟨0, 300, 5, some "b", "data/b.json", false⟩),
      ("data/b.json", FileContent.logFile
        ⟨5, some "b", "x", "y", false, none, false, none⟩)], []⟩
    (by decide) rfl (by decide) rfl rfl (by decide) (by decide) (by decide) (by decide)
    (by decide) (by decide)
  exact ⟨fs', h1, h2, h3⟩

/-- The `base_name` computed by `resolve_session_log_path`: the sanitized
non-empty note if present, otherwise the compact timestamp. -/
def base_name (note : Option String) (start_unix : Int) : String :=
  ((note.map sanitize_filename).filter (fun s => !s.isEmpty)).getD
    (tsCompact (unix_to_system_time start_unix))

theorem resolve_eq_if (note : Option String) (t : Int) (fs : FS) :
    resolve_session_log_path note t fs =
      if (fs.read (dataJoin (base_name note t ++ ".json"))).isSome then
        dataJoin (base_name note t ++ "-" ++ tsCompact (unix_to_system_time t) ++ ".json")
      else dataJoin (base_name note t ++ ".json") := rfl

theorem dataJoin_inj (a b : String) (h : dataJoin a = dataJoin b) : a = b := by
  have hd := congrArg String.data h
  simp only [dataJoin, string_data_append] at hd
  exact String.ext (List.append_cancel_left hd)

theorem json_suffix_inj (a b : String) (h : a ++ ".json" = b ++ ".json") : a = b := by
  have hd := congrArg String.data h
  simp only [string_data_append] at hd
  exact String.ext (List.append_cancel_right hd)

theorem json_ne_hyphen (x y t : String) (hx : x.data.length = y.data.length) :
    dataJoin (x ++ ".json") ≠ dataJoin (y ++ "-" ++ t ++ ".json") := by
  intro h
  have hd := congrArg String.data h
  simp only [dataJoin, string_data_append] at hd
  have hlen := congrArg List.length hd
  simp only [List.length_append] at hlen
  have hdash : (['-'] : List Char).length = 1 := rfl
  omega

theorem hyphen_ts_inj (b1 b2 t1 t2 : String) (hb : b1.data.length = b2.data.length)
    (h : dataJoin (b1 ++ "-" ++ t1 ++ ".json") = dataJoin (b2 ++ "-" ++ t2 ++ ".json")) :
    t1 = t2 := by
  have hd := congrArg String.data (dataJoin_inj _ _ h)
  simp only [string_data_append] at hd
  have h2 := List.append_cancel_right hd
  have hl : (b1.data ++ ("-" : String).data).length = (b2.data ++ ("-" : String).data).length := by
    simp only [List.length_append, hb]
  exact String.ext (List.append_inj h2 hl).2

theorem unix_to_system_time_lt (t : Int) (h0 : 0 ≤ t) (h1 : t < 240784704000) :
    unix_to_system_time t < 240784704000 := by
  unfold unix_to_system_time toU64
  omega

theorem tsCompact_len16 (t : Int) (h0 : 0 ≤ t) (h1 : t < 240784704000) :
    (tsCompact (unix_to_system_time t)).data.length = 16 := by
  rcases hc : civilFromUnix (unix_to_system_time t) with ⟨y, m, d, h, mi, s⟩
  exact tsCompact_data_length _ y m d h mi s hc
    (civilFromUnix_bounds _ y m d h mi s (unix_to_system_time_lt t h0 h1) hc).1

/-- C8: filename collision avoidance.  For two starts with the same note
at different UNIX-second start times (each a valid timestamp), where the
first session's resolved log file exists on disk at resolution time of
the second: when the plain candidate derived from the base name already
exists, the second candidate appends the compact UTC timestamp of
`start_unix` to the base name; and the path resolved for the second
session is distinct from the first session's log path, so the first log
is not overwritten. -/
theorem resolve_path_collision_avoidance
    (note : Option String) (t1 t2 : Int) (fs1 fs2 : FS)
    (h1l : 0 ≤ t1) (h1u : t1 < 240784704000)
    (h2l : 0 ≤ t2) (h2u : t2 < 240784704000)
    (htne : t1 ≠ t2)
    (hex : (fs2.read (resolve_session_log_path note t1 fs1)).isSome = true) :
    ((fs2.read (dataJoin (base_name note t2 ++ ".json"))).isSome = true →
      resolve_session_log_path note t2 fs2 =
        dataJoin (base_name note t2 ++ "-" ++
          tsCompact (unix_to_system_time t2) ++ ".json")) ∧
    resolve_session_log_path note t2 fs2 ≠ resolve_session_log_path note t1 fs1 := by
  have htsne : tsCompact (unix_to_system_time t1) ≠ tsCompact (unix_to_system_time t2) := by
    intro h
    have h2 := tsCompact_inj _ _ (unix_to_system_time_lt t1 h1l h1u)
      (unix_to_system_time_lt t2 h2l h2u) h
    unfold unix_to_system_time toU64 at h2
    omega
  have hl1 := tsCompact_len16 t1 h1l h1u
  have hl2 := tsCompact_len16 t2 h2l h2u
  rw [resolve_eq_if note t1 fs1] at hex
  rw [resolve_eq_if note t2 fs2]
  refine ⟨fun h => by rw [if_pos h], ?_⟩
  rw [resolve_eq_if note t1 fs1]
  rcases hsan : (note.map sanitize_filename).filter (fun s => !s.isEmpty) with - | b
  · have hb : ∀ t : Int, base_name note t = tsCompact (unix_to_system_time t) := by
      intro t
      unfold base_name
      rw [hsan]
      exact Option.getD_none
    rw [hb t1] at hex ⊢
    rw [hb t2]
    by_cases c2 : (fs2.read (dataJoin (tsCompact (unix_to_system_time t2) ++ ".json"))).isSome =
      true
    · rw [if_pos c2]
      by_cases c1 : (fs1.read (dataJoin (tsCompact (unix_to_system_time t1) ++ ".json"))).isSome =
        true
      · rw [if_pos c1]
        intro h
        exact htsne (hyphen_ts_inj _ _ _ _ (hl2.trans hl1.symm) h).symm
      · rw [if_neg c1]
        intro h
        exact json_ne_hyphen _ _ _ (hl1.trans hl2.symm) h.symm
    · rw [if_neg c2]
      by_cases c1 : (fs1.read (dataJoin (tsCompact (unix_to_system_time t1) ++ ".json"))).isSome =
        true
      · rw [if_pos c1]
        exact json_ne_hyphen _ _ _ (hl2.trans hl1.symm)
      · rw [if_neg c1]
        intro h
        exact htsne (json_suffix_inj _ _ (dataJoin_inj _ _ h)).symm
  · have hb : ∀ t : Int, base_name note t = b := by
      intro t
      unfold base_name
      rw [hsan]
      exact Option.getD_some
    rw [hb t1] at hex ⊢
    rw [hb t2]
    by_cases c2 : (fs2.read (dataJoin (b ++ ".json"))).isSome = true
    · rw [if_pos c2]
      by_cases c1 : (fs1.read (dataJoin (b ++ ".json"))).isSome = true
      · rw [if_pos c1]
        intro h
        exact htsne (hyphen_ts_inj _ _ _ _ rfl h).symm
      · rw [if_neg c1]
        intro h
        exact json_ne_hyphen _ _ _ rfl h.symm
    · rw [if_neg c2]
      by_cases c1 : (fs1.read (dataJoin (b ++ ".json"))).isSome = true
      · rw [if_pos c1]
        exact json_ne_hyphen _ _ _ rfl
      · rw [if_neg c1]
        rw [if_neg c1] at hex
        exact absurd hex c2

/-- C8 witness: a first session with note `"a"` started at `t = 0` lands
at `data/a.json`; a second session with the same note at `t = 1`, with
that file now on disk, resolves to the distinct fallback
`data/a-19700101T000001Z.json`. -/
theorem resolve_path_collision_avoidance_witness :
    ((⟨[("data/a.json", FileContent.logFile
        ⟨1, some "a", "x", "y", false, none, false, none⟩)], []⟩ : FS).read
      (resolve_session_log_path (some "a") 0 ⟨[], []⟩)).isSome = true ∧
    resolve_session_log_path (some "a") 1
        ⟨[("data/a.json", FileContent.logFile
          ⟨1, some "a", "x", "y", false, none, false, none⟩)], []⟩ ≠
      resolve_session_log_path (some "a") 0 ⟨[], []⟩ ∧
    resolve_session_log_path (some "a") 1
        ⟨[("data/a.json", FileContent.logFile
          ⟨1, some "a", "x", "y", false, none, false, none⟩)], []⟩ =
      "data/a-19700101T000001Z.json" := by
  refine ⟨by decide, ?_, by decide⟩
  exact (resolve_path_collision_avoidance (some "a") 0 1 ⟨[], []⟩
    ⟨[("data/a.json", FileContent.logFile
      ⟨1, some "a", "x", "y", false, none, false, none⟩)], []⟩
    (by decide) (by decide) (by decide) (by decide) (by decide) (by decide)).2

end Pomodoro
